import Mathlib

/-
Verification of the RPly in-memory I/O adapter layer (rplymemory.h).

The repository provides the declarations of the two adapter entry points,
`ply_open_from_memory` and `ply_create_to_memory`, in src/rplymemory.h.
The adapter implementation file (rplymemory.c) is not part of the given
sources, so the behaviour of the two adapters is modelled here from the
specification of the adapter layer (spec.md sections 3, 4, 6 and 7):
a memory reader handle is a read-only view of the caller's buffer with a
cursor, a memory writer handle is a mutable view with a fixed capacity,
a cursor, a failure flag and an output size slot written at close time.
Bytes are modelled as natural numbers, buffers as lists of bytes, and the
error callback as an accumulating log of reports carrying the idata/pdata
context supplied at construction.
-/

namespace RPlyMemory

/-- Modelled from the spec: one invocation of the caller-supplied error
callback (rplymemory.c missing from the sources).  The spec requires every
error report to carry the `idata`/`pdata` context values supplied at
construction, plus a descriptive message. -/
structure ErrorReport where
  idata : Int
  pdata : Nat
  message : String
deriving DecidableEq

/-- Modelled from the spec: the storage mode enumeration selecting the
serialization encoding at writer-construction time; it is opaque to the
adapter itself (spec section 3, "Storage Mode"). -/
inductive e_ply_storage_mode where
  | ascii
  | binary_little_endian
  | binary_big_endian
  | binary_native
deriving DecidableEq

/-- Modelled from the spec: the memory writer handle created by
`ply_create_to_memory` (rplymemory.c missing from the sources).  It owns a
mutable view of the caller's buffer with fixed capacity `bufferSize`, a
cursor marking the next unwritten byte, a failed flag (capacity exceeded),
a closed flag, and the `plySize` output slot populated at close. -/
structure WriterHandle where
  buffer : List Nat
  bufferSize : Nat
  cursor : Nat
  failed : Bool
  closed : Bool
  plySize : Option Nat
  storage_mode : e_ply_storage_mode
  idata : Int
  pdata : Nat
  errors : List ErrorReport
deriving DecidableEq

/-- The descriptive message reported when a write would overrun the
writer's fixed buffer. -/
def overflowMessage : String := "write would overflow the memory buffer"

/-- Overwrite the bytes of `buf` starting at position `pos` with `data`,
leaving all other positions unchanged (when `pos + data.length` is within
`buf`). -/
def writeBytes (buf : List Nat) (pos : Nat) (data : List Nat) : List Nat :=
  buf.take pos ++ data ++ buf.drop (pos + data.length)

/-- Modelled from the spec: one byte-level write request issued by the core
library against a writer handle (rplymemory.c missing from the sources).
A write on a closed handle is a usage error and changes nothing (spec
section 4, state machine); a capacity-exceeded condition is permanent, so a
write on a failed handle changes nothing and raises no further report (spec
section 7, no internal retries); a write that would advance the cursor past
`bufferSize` fails, reports one error with the construction context, and
marks the handle failed (spec section 4.2); otherwise the bytes are
appended at the cursor and the cursor advances. -/
def memWrite (h : WriterHandle) (data : List Nat) : WriterHandle :=
  if h.closed then h
  else if h.failed then h
  else if h.bufferSize < h.cursor + data.length then
    { h with failed := true,
             errors := h.errors ++ [⟨h.idata, h.pdata, overflowMessage⟩] }
  else
    { h with buffer := writeBytes h.buffer h.cursor data,
             cursor := h.cursor + data.length }

/-- Drive a writer handle through a sequence of write requests. -/
def runWrites (h : WriterHandle) (ws : List (List Nat)) : WriterHandle :=
  ws.foldl memWrite h

/-- Modelled from the spec: closing a writer handle (rplymemory.c missing
from the sources).  On first close the final cursor value is written into
the `plySize` output slot exactly once; closing an already-closed handle
changes nothing (spec sections 4.2 and 8, idempotence). -/
def memClose (h : WriterHandle) : WriterHandle :=
  if h.closed then h
  else { h with closed := true, plySize := some h.cursor }

/-- Modelled from the spec: the freshly constructed writer handle returned
on success by `ply_create_to_memory` (rplymemory.c missing from the
sources): cursor at 0, not failed, not closed, output slot unwritten, and
the error-callback context held for the lifetime of the handle. -/
def writerInit (buffer : List Nat) (bufferSize : Nat) (mode : e_ply_storage_mode)
    (idata : Int) (pdata : Nat) : WriterHandle :=
  { buffer := buffer, bufferSize := bufferSize, cursor := 0, failed := false,
    closed := false, plySize := none, storage_mode := mode,
    idata := idata, pdata := pdata, errors := [] }

/-- Modelled from the spec: `ply_create_to_memory` (declared at
src/rplymemory.h:43, definition missing from the sources).  The buffer
argument is `none` for a null pointer; `allocOk` models whether allocation
of the internal bookkeeping structure succeeds.  Construction fails,
reporting through the error callback, on a null buffer, a non-positive
capacity, or allocation failure (spec section 7, invalid input and
allocation failure); otherwise it returns the fresh handle. -/
def ply_create_to_memory (buffer : Option (List Nat)) (buffer_size : Nat)
    (storage_mode : e_ply_storage_mode) (allocOk : Bool)
    (idata : Int) (pdata : Nat) : Option WriterHandle × List ErrorReport :=
  match buffer with
  | none => (none, [⟨idata, pdata, "unable to create to memory: buffer is null"⟩])
  | some buf =>
    if buffer_size = 0 then
      (none, [⟨idata, pdata, "unable to create to memory: buffer size is not positive"⟩])
    else if allocOk then
      (some (writerInit buf buffer_size storage_mode idata pdata), [])
    else
      (none, [⟨idata, pdata, "unable to allocate ply handle"⟩])

/-- Modelled from the spec: the memory reader handle created by
`ply_open_from_memory` (rplymemory.c missing from the sources).  It holds a
read-only view of the caller's buffer, the document length, and a cursor
marking the next unread byte. -/
structure ReaderHandle where
  buffer : List Nat
  length : Nat
  cursor : Nat
  idata : Int
  pdata : Nat
deriving DecidableEq

/-- Modelled from the spec and the declared C signature: the document
length of a reader buffer.  `ply_open_from_memory` (src/rplymemory.h:29)
receives only a `const char *` with no length parameter, so the in-memory
document extends to the first NUL byte, as `strlen` would measure it. -/
def strlenFn (buf : List Nat) : Nat := (buf.takeWhile (fun c => c != 0)).length

/-- Modelled from the spec: the freshly constructed reader handle returned
on success by `ply_open_from_memory` (rplymemory.c missing from the
sources): cursor at 0 and the document delimited by the first NUL byte. -/
def openReader (buf : List Nat) (idata : Int) (pdata : Nat) : ReaderHandle :=
  { buffer := buf, length := strlenFn buf, cursor := 0, idata := idata, pdata := pdata }

/-- Modelled from the spec: `ply_open_from_memory` (declared at
src/rplymemory.h:29, definition missing from the sources).  The buffer
argument is `none` for a null pointer; `allocOk` models whether allocation
of the internal bookkeeping structure succeeds.  Opening fails, reporting a
descriptive message through the error callback, exactly on a null buffer or
allocation failure (spec sections 4.1 and 7); no parsing occurs at open
time. -/
def ply_open_from_memory (buffer : Option (List Nat)) (allocOk : Bool)
    (idata : Int) (pdata : Nat) : Option ReaderHandle × List ErrorReport :=
  match buffer with
  | none => (none, [⟨idata, pdata, "unable to open from memory: buffer is null"⟩])
  | some buf =>
    if allocOk then
      (some (openReader buf idata pdata), [])
    else
      (none, [⟨idata, pdata, "unable to allocate ply handle"⟩])

/-- Modelled from the spec: one byte-level read request issued by the core
library against a reader handle (rplymemory.c missing from the sources):
read up to `n` bytes starting at the cursor, never past the end of the
document, return the bytes actually read and advance the cursor by their
count (spec section 6, byte-stream abstraction). -/
def memRead (h : ReaderHandle) (n : Nat) : ReaderHandle × List Nat :=
  ({ h with cursor := h.cursor + min n (h.length - h.cursor) },
   (h.buffer.drop h.cursor).take (min n (h.length - h.cursor)))

/-- Modelled from the spec: a seek request against a reader handle
(rplymemory.c missing from the sources).  A target inside `[0, length]`
moves the cursor and succeeds; a target outside the document is rejected
and leaves the handle unchanged, keeping the cursor invariant of spec
section 3. -/
def memSeek (h : ReaderHandle) (target : Nat) : ReaderHandle × Bool :=
  if target ≤ h.length then ({ h with cursor := target }, true)
  else (h, false)

/-- A byte-level operation the core library can issue against a reader
handle. -/
inductive ReaderOp where
  | read (n : Nat)
  | seek (target : Nat)
deriving DecidableEq

/-- Apply one reader operation, returning the new handle and the bytes the
operation delivered to the core library. -/
def stepReader (h : ReaderHandle) : ReaderOp → ReaderHandle × List Nat
  | .read n => memRead h n
  | .seek t => ((memSeek h t).1, [])

/-- Drive a reader handle through a sequence of operations, returning the
final handle and the concatenation of all bytes delivered to the core
library. -/
def runReads (h : ReaderHandle) : List ReaderOp → ReaderHandle × List Nat
  | [] => (h, [])
  | op :: ops =>
    let st := stepReader h op
    let rest := runReads st.1 ops
    (rest.1, st.2 ++ rest.2)

/-! ### Basic lemmas about `writeBytes` -/

theorem writeBytes_nil (buf : List Nat) (pos : Nat) : writeBytes buf pos [] = buf := by
  simp [writeBytes]

theorem writeBytes_zero (buf d : List Nat) : writeBytes buf 0 d = d ++ buf.drop d.length := by
  simp [writeBytes]

theorem writeBytes_cons (x : Nat) (buf d : List Nat) (pos : Nat) :
    writeBytes (x :: buf) (pos + 1) d = x :: writeBytes buf pos d := by
  simp [writeBytes, Nat.add_right_comm pos 1 d.length]

theorem writeBytes_length (buf d : List Nat) (pos : Nat)
    (hd : pos + d.length ≤ buf.length) :
    (writeBytes buf pos d).length = buf.length := by
  simp [writeBytes]
  omega

theorem writeBytes_zero_append (buf d1 d2 : List Nat) :
    writeBytes (writeBytes buf 0 d1) d1.length d2 = writeBytes buf 0 (d1 ++ d2) := by
  rw [writeBytes_zero, writeBytes_zero]
  unfold writeBytes
  rw [List.take_left, List.drop_append_eq_append_drop]
  rw [List.drop_eq_nil_of_le (by simp), List.nil_append, List.length_append]
  rw [Nat.add_sub_cancel_left, List.drop_drop]

theorem writeBytes_append (buf : List Nat) (pos : Nat) (d1 d2 : List Nat)
    (hp : pos ≤ buf.length) :
    writeBytes (writeBytes buf pos d1) (pos + d1.length) d2 =
      writeBytes buf pos (d1 ++ d2) := by
  induction buf generalizing pos with
  | nil =>
    have hpz : pos = 0 := by simpa using hp
    subst hpz
    simpa using writeBytes_zero_append [] d1 d2
  | cons x rest ih =>
    cases pos with
    | zero => simpa using writeBytes_zero_append (x :: rest) d1 d2
    | succ p =>
      have hp' : p ≤ rest.length := by simpa using hp
      rw [writeBytes_cons, Nat.add_right_comm p 1 d1.length, writeBytes_cons,
        ih p hp', writeBytes_cons]

theorem writeBytes_getElem_high (buf d : List Nat) (pos i : Nat)
    (hp : pos ≤ buf.length) (hi : pos + d.length ≤ i) :
    (writeBytes buf pos d)[i]? = buf[i]? := by
  induction buf generalizing pos i with
  | nil =>
    have hpz : pos = 0 := by simpa using hp
    subst hpz
    rw [writeBytes_zero]
    rw [List.getElem?_append_right (by omega)]
    simp
  | cons x rest ih =>
    cases pos with
    | zero =>
      rw [writeBytes_zero]
      rw [List.getElem?_append_right (by omega)]
      rw [List.getElem?_drop]
      congr 1
      omega
    | succ p =>
      have hp' : p ≤ rest.length := by simpa using hp
      obtain ⟨j, rfl⟩ : ∃ j, i = j + 1 := ⟨i - 1, by omega⟩
      rw [writeBytes_cons]
      simp only [List.getElem?_cons_succ]
      exact ih p j hp' (by omega)

/-! ### Step lemmas about `memWrite`, `runWrites` and `memClose` -/

theorem runWrites_nil (h : WriterHandle) : runWrites h [] = h := rfl

theorem runWrites_cons (h : WriterHandle) (d : List Nat) (ws : List (List Nat)) :
    runWrites h (d :: ws) = runWrites (memWrite h d) ws := rfl

theorem memWrite_closed (h : WriterHandle) (d : List Nat) (hc : h.closed = true) :
    memWrite h d = h := by
  simp [memWrite, hc]

theorem memWrite_failed (h : WriterHandle) (d : List Nat) (hf : h.failed = true) :
    memWrite h d = h := by
  simp [memWrite, hf]

theorem memWrite_success (h : WriterHandle) (d : List Nat)
    (hc : h.closed = false) (hf : h.failed = false)
    (hcap : h.cursor + d.length ≤ h.bufferSize) :
    memWrite h d = { h with buffer := writeBytes h.buffer h.cursor d,
                            cursor := h.cursor + d.length } := by
  simp [memWrite, hc, hf, Nat.not_lt.mpr hcap]

theorem memWrite_overflow (h : WriterHandle) (d : List Nat)
    (hc : h.closed = false) (hf : h.failed = false)
    (hov : h.bufferSize < h.cursor + d.length) :
    memWrite h d = { h with failed := true,
                            errors := h.errors ++ [⟨h.idata, h.pdata, overflowMessage⟩] } := by
  simp [memWrite, hc, hf, hov]

theorem runWrites_failed (ws : List (List Nat)) : ∀ (h : WriterHandle),
    h.failed = true → runWrites h ws = h := by
  induction ws with
  | nil => intro h _; rfl
  | cons d ws ih =>
    intro h hf
    rw [runWrites_cons, memWrite_failed h d hf]
    exact ih h hf

theorem runWrites_success (ws : List (List Nat)) : ∀ (h : WriterHandle),
    h.closed = false → h.failed = false →
    h.bufferSize ≤ h.buffer.length →
    h.cursor + ws.flatten.length ≤ h.bufferSize →
    runWrites h ws = { h with buffer := writeBytes h.buffer h.cursor ws.flatten,
                              cursor := h.cursor + ws.flatten.length } := by
  induction ws with
  | nil =>
    intro h hc hf hwf hcap
    simp [runWrites_nil, writeBytes_nil]
  | cons d ws ih =>
    intro h hc hf hwf hcap
    have hflat : (d :: ws).flatten = d ++ ws.flatten := rfl
    have hlen : (d :: ws).flatten.length = d.length + ws.flatten.length := by
      simp [hflat]
    have hd : h.cursor + d.length ≤ h.bufferSize := by omega
    rw [runWrites_cons, memWrite_success h d hc hf hd]
    have key := ih { h with buffer := writeBytes h.buffer h.cursor d,
                            cursor := h.cursor + d.length }
      hc hf
      (by simpa [writeBytes_length h.buffer d h.cursor (by omega)] using hwf)
      (by show h.cursor + d.length + ws.flatten.length ≤ h.bufferSize; omega)
    rw [key]
    simp only [hflat, List.length_append]
    rw [writeBytes_append h.buffer h.cursor d ws.flatten (by omega), Nat.add_assoc]

theorem runWrites_overflow (ws : List (List Nat)) : ∀ (h : WriterHandle),
    h.closed = false → h.failed = false →
    h.cursor ≤ h.bufferSize →
    h.bufferSize < h.cursor + ws.flatten.length →
    (runWrites h ws).failed = true ∧ (runWrites h ws).closed = false ∧
    (runWrites h ws).plySize = h.plySize ∧
    (runWrites h ws).idata = h.idata ∧ (runWrites h ws).pdata = h.pdata ∧
    (runWrites h ws).cursor ≤ h.bufferSize ∧
    (runWrites h ws).bufferSize = h.bufferSize ∧
    (runWrites h ws).errors = h.errors ++ [⟨h.idata, h.pdata, overflowMessage⟩] := by
  induction ws with
  | nil =>
    intro h hc hf hcur hov
    exact absurd hov (by simp [Nat.not_lt]; omega)
  | cons d ws ih =>
    intro h hc hf hcur hov
    have hflat : (d :: ws).flatten = d ++ ws.flatten := rfl
    have hlen : (d :: ws).flatten.length = d.length + ws.flatten.length := by
      simp [hflat]
    by_cases hd : h.cursor + d.length ≤ h.bufferSize
    · rw [runWrites_cons, memWrite_success h d hc hf hd]
      exact ih { h with buffer := writeBytes h.buffer h.cursor d,
                        cursor := h.cursor + d.length }
        hc hf hd
        (by show h.bufferSize < h.cursor + d.length + ws.flatten.length; omega)
    · rw [runWrites_cons, memWrite_overflow h d hc hf (by omega)]
      rw [runWrites_failed ws _ rfl]
      exact ⟨rfl, hc, rfl, rfl, rfl, hcur, rfl, rfl⟩

theorem memWrite_bufferSize (h : WriterHandle) (d : List Nat) :
    (memWrite h d).bufferSize = h.bufferSize := by
  unfold memWrite
  split
  · rfl
  split
  · rfl
  split
  · rfl
  · rfl

theorem memWrite_idata (h : WriterHandle) (d : List Nat) :
    (memWrite h d).idata = h.idata := by
  unfold memWrite
  split
  · rfl
  split
  · rfl
  split
  · rfl
  · rfl

theorem memWrite_pdata (h : WriterHandle) (d : List Nat) :
    (memWrite h d).pdata = h.pdata := by
  unfold memWrite
  split
  · rfl
  split
  · rfl
  split
  · rfl
  · rfl

theorem memWrite_length (h : WriterHandle) (d : List Nat)
    (hwf : h.bufferSize ≤ h.buffer.length) :
    (memWrite h d).buffer.length = h.buffer.length := by
  unfold memWrite
  split
  · rfl
  split
  · rfl
  split
  · rfl
  · rename_i hov
    exact writeBytes_length h.buffer d h.cursor (by omega)

theorem memWrite_getElem_high (h : WriterHandle) (d : List Nat) (i : Nat)
    (hwf : h.bufferSize ≤ h.buffer.length) (hi : h.bufferSize ≤ i) :
    (memWrite h d).buffer[i]? = h.buffer[i]? := by
  unfold memWrite
  split
  · rfl
  split
  · rfl
  split
  · rfl
  · rename_i hov
    exact writeBytes_getElem_high h.buffer d h.cursor i (by omega) (by omega)

theorem runWrites_getElem_high (ws : List (List Nat)) : ∀ (h : WriterHandle) (i : Nat),
    h.bufferSize ≤ h.buffer.length → h.bufferSize ≤ i →
    (runWrites h ws).buffer[i]? = h.buffer[i]? := by
  induction ws with
  | nil => intro h i _ _; rfl
  | cons d ws ih =>
    intro h i hwf hi
    rw [runWrites_cons]
    rw [ih (memWrite h d) i
      (by rw [memWrite_bufferSize, memWrite_length h d hwf]; exact hwf)
      (by rw [memWrite_bufferSize]; exact hi)]
    exact memWrite_getElem_high h d i hwf hi

theorem runWrites_length (ws : List (List Nat)) : ∀ (h : WriterHandle),
    h.bufferSize ≤ h.buffer.length →
    (runWrites h ws).buffer.length = h.buffer.length := by
  induction ws with
  | nil => intro h _; rfl
  | cons d ws ih =>
    intro h hwf
    rw [runWrites_cons]
    rw [ih (memWrite h d)
      (by rw [memWrite_bufferSize, memWrite_length h d hwf]; exact hwf)]
    exact memWrite_length h d hwf

theorem memClose_closed_id (h : WriterHandle) (hc : h.closed = true) :
    memClose h = h := by
  simp [memClose, hc]

theorem memClose_open (h : WriterHandle) (hc : h.closed = false) :
    memClose h = { h with closed := true, plySize := some h.cursor } := by
  simp [memClose, hc]

theorem memWrite_errors (h : WriterHandle) (d : List Nat) :
    ∀ e ∈ (memWrite h d).errors, e ∈ h.errors ∨ (e.idata = h.idata ∧ e.pdata = h.pdata) := by
  unfold memWrite
  split
  · exact fun e he => Or.inl he
  split
  · exact fun e he => Or.inl he
  split
  · intro e he
    rcases List.mem_append.mp he with h1 | h2
    · exact Or.inl h1
    · right
      rcases List.mem_singleton.mp h2 with rfl
      exact ⟨rfl, rfl⟩
  · exact fun e he => Or.inl he

theorem runWrites_errors (ws : List (List Nat)) : ∀ (h : WriterHandle),
    ∀ e ∈ (runWrites h ws).errors,
      e ∈ h.errors ∨ (e.idata = h.idata ∧ e.pdata = h.pdata) := by
  induction ws with
  | nil => exact fun h e he => Or.inl he
  | cons d ws ih =>
    intro h e he
    rw [runWrites_cons] at he
    rcases ih (memWrite h d) e he with h1 | h2
    · exact memWrite_errors h d e h1
    · right
      rw [memWrite_idata] at h2
      rw [memWrite_pdata] at h2
      exact h2

theorem memClose_errors (h : WriterHandle) : (memClose h).errors = h.errors := by
  unfold memClose
  split
  · rfl
  · rfl

theorem memClose_idata (h : WriterHandle) : (memClose h).idata = h.idata := by
  unfold memClose
  split
  · rfl
  · rfl

theorem memClose_pdata (h : WriterHandle) : (memClose h).pdata = h.pdata := by
  unfold memClose
  split
  · rfl
  · rfl

/-! ### Step lemmas about the reader -/

theorem stepReader_buffer (h : ReaderHandle) (op : ReaderOp) :
    (stepReader h op).1.buffer = h.buffer := by
  cases op with
  | read n => rfl
  | seek t =>
    show (memSeek h t).1.buffer = h.buffer
    unfold memSeek
    split
    · rfl
    · rfl

theorem stepReader_length (h : ReaderHandle) (op : ReaderOp) :
    (stepReader h op).1.length = h.length := by
  cases op with
  | read n => rfl
  | seek t =>
    show (memSeek h t).1.length = h.length
    unfold memSeek
    split
    · rfl
    · rfl

theorem runReads_buffer (ops : List ReaderOp) : ∀ (h : ReaderHandle),
    (runReads h ops).1.buffer = h.buffer := by
  induction ops with
  | nil => intro h; rfl
  | cons op ops ih =>
    intro h
    show (runReads (stepReader h op).1 ops).1.buffer = h.buffer
    rw [ih (stepReader h op).1, stepReader_buffer]

theorem stepReader_cursor_le (h : ReaderHandle) (op : ReaderOp)
    (hc : h.cursor ≤ h.length) :
    (stepReader h op).1.cursor ≤ (stepReader h op).1.length := by
  cases op with
  | read n =>
    show h.cursor + min n (h.length - h.cursor) ≤ h.length
    omega
  | seek t =>
    show (memSeek h t).1.cursor ≤ (memSeek h t).1.length
    unfold memSeek
    split
    · rename_i ht
      exact ht
    · exact hc

theorem memRead_out (h : ReaderHandle) (n : Nat) :
    (memRead h n).2 = ((h.buffer.take h.length).drop h.cursor).take n := by
  show (h.buffer.drop h.cursor).take (min n (h.length - h.cursor)) =
    ((h.buffer.take h.length).drop h.cursor).take n
  rw [List.drop_take, List.take_take]

theorem runReads_congr (ops : List ReaderOp) : ∀ (h1 h2 : ReaderHandle),
    h1.cursor = h2.cursor → h1.length = h2.length →
    h1.buffer.take h1.length = h2.buffer.take h2.length →
    (runReads h1 ops).2 = (runReads h2 ops).2 ∧
    (runReads h1 ops).1.cursor = (runReads h2 ops).1.cursor ∧
    (runReads h1 ops).1.length = (runReads h2 ops).1.length := by
  induction ops with
  | nil => exact fun h1 h2 hcur hlen _ => ⟨rfl, hcur, hlen⟩
  | cons op ops ih =>
    intro h1 h2 hcur hlen hdoc
    have hstep : (stepReader h1 op).1.cursor = (stepReader h2 op).1.cursor ∧
        (stepReader h1 op).2 = (stepReader h2 op).2 := by
      cases op with
      | read n =>
        constructor
        · show h1.cursor + min n (h1.length - h1.cursor) =
            h2.cursor + min n (h2.length - h2.cursor)
          rw [hcur, hlen]
        · show (memRead h1 n).2 = (memRead h2 n).2
          rw [memRead_out, memRead_out, hdoc, hcur]
      | seek t =>
        constructor
        · show (memSeek h1 t).1.cursor = (memSeek h2 t).1.cursor
          unfold memSeek
          rw [hlen]
          split
          · rfl
          · exact hcur
        · rfl
    have hdoc' : (stepReader h1 op).1.buffer.take (stepReader h1 op).1.length =
        (stepReader h2 op).1.buffer.take (stepReader h2 op).1.length := by
      rw [stepReader_buffer, stepReader_length, stepReader_buffer, stepReader_length]
      exact hdoc
    have hrest := ih (stepReader h1 op).1 (stepReader h2 op).1 hstep.1
      (by rw [stepReader_length, stepReader_length]; exact hlen) hdoc'
    refine ⟨?_, hrest.2.1, hrest.2.2⟩
    show (stepReader h1 op).2 ++ (runReads (stepReader h1 op).1 ops).2 =
      (stepReader h2 op).2 ++ (runReads (stepReader h2 op).1 ops).2
    rw [hstep.2, hrest.1]

theorem strlenFn_le (buf : List Nat) : strlenFn buf ≤ buf.length := by
  induction buf with
  | nil => simp [strlenFn]
  | cons x xs ih =>
    simp only [strlenFn, List.takeWhile_cons] at ih ⊢
    split
    · simpa using ih
    · simp

theorem strlenFn_append_nul (a b : List Nat) (ha : (0 : Nat) ∉ a) :
    strlenFn (a ++ 0 :: b) = a.length := by
  induction a with
  | nil => simp [strlenFn]
  | cons x xs ih =>
    have hx : x ≠ 0 := fun hx0 => ha (hx0 ▸ List.mem_cons_self x xs)
    have hxs : (0 : Nat) ∉ xs := fun hm => ha (List.mem_cons_of_mem x hm)
    have := ih hxs
    simp only [strlenFn, List.cons_append, List.takeWhile_cons] at this ⊢
    simp [hx, this]

/-! ### Claim theorems -/

/-- C1: on a writer handle created by `ply_create_to_memory`, any single
write request that would advance the cursor past `bufferSize` fails that
write (buffer and cursor unchanged), reports an error through the error
callback with the handle's context, and leaves the handle in a failed
state; and no write sequence, regardless of requested sizes, ever modifies
a byte of the caller's buffer at an index at or past `bufferSize`. -/
theorem claim_C1_capacity_safety :
    (∀ (h : WriterHandle) (d : List Nat),
       h.closed = false → h.failed = false →
       h.bufferSize < h.cursor + d.length →
       (memWrite h d).failed = true ∧
       (memWrite h d).buffer = h.buffer ∧
       (memWrite h d).cursor = h.cursor ∧
       (memWrite h d).errors = h.errors ++ [⟨h.idata, h.pdata, overflowMessage⟩]) ∧
    (∀ (h : WriterHandle) (ws : List (List Nat)) (i : Nat),
       h.bufferSize ≤ h.buffer.length → h.bufferSize ≤ i →
       (runWrites h ws).buffer[i]? = h.buffer[i]?) := by
  constructor
  · intro h d hc hf hov
    rw [memWrite_overflow h d hc hf hov]
    exact ⟨rfl, rfl, rfl, rfl⟩
  · intro h ws i hwf hi
    exact runWrites_getElem_high ws h i hwf hi

/-- Witness for C1 at a concrete handle: a 3-byte write into a size-2
buffer fails, and a full write sequence leaves the byte at index 2
untouched. -/
theorem claim_C1_capacity_safety_witness :
    (memWrite (writerInit [0, 0, 0] 2 e_ply_storage_mode.ascii 5 9) [1, 2, 3]).failed = true ∧
    (runWrites (writerInit [0, 0, 0] 2 e_ply_storage_mode.ascii 5 9) [[1, 2]]).buffer[2]? =
      (writerInit [0, 0, 0] 2 e_ply_storage_mode.ascii 5 9).buffer[2]? :=
  ⟨(claim_C1_capacity_safety.1 (writerInit [0, 0, 0] 2 e_ply_storage_mode.ascii 5 9)
      [1, 2, 3] rfl rfl (by decide)).1,
   claim_C1_capacity_safety.2 (writerInit [0, 0, 0] 2 e_ply_storage_mode.ascii 5 9)
      [[1, 2]] 2 (by decide) (by decide)⟩

/-- C2: for every sequence of writes whose total length is at most
`bufferSize`, driving a handle created by `ply_create_to_memory` through
those writes and closing it leaves the output size slot equal to the exact
number of bytes written and the first that many bytes of the buffer equal
to the concatenation of all written spans, in order. -/
theorem claim_C2_exact_write_then_close (buf : List Nat) (size : Nat)
    (mode : e_ply_storage_mode) (i : Int) (p : Nat) (ws : List (List Nat))
    (hsz : size ≤ buf.length)
    (htot : (ws.map List.length).sum ≤ size) :
    (memClose (runWrites (writerInit buf size mode i p) ws)).plySize =
      some ((ws.map List.length).sum) ∧
    (memClose (runWrites (writerInit buf size mode i p) ws)).buffer.take
      ((ws.map List.length).sum) = ws.flatten := by
  have hflen : ws.flatten.length = (ws.map List.length).sum := List.length_flatten ws
  have hrun := runWrites_success ws (writerInit buf size mode i p) rfl rfl
    (by show size ≤ buf.length; exact hsz)
    (by show 0 + ws.flatten.length ≤ size; omega)
  rw [hrun, memClose_open _ rfl]
  constructor
  · show some (0 + ws.flatten.length) = some ((ws.map List.length).sum)
    rw [Nat.zero_add, hflen]
  · show (writeBytes buf 0 ws.flatten).take ((ws.map List.length).sum) = ws.flatten
    rw [writeBytes_zero, ← hflen, List.take_left]

/-- Witness for C2: scenario A of the spec, buffer of size 10, two writes
of 4 bytes each; close reports size 8 and the buffer holds the
concatenation. -/
theorem claim_C2_exact_write_then_close_witness :
    (memClose (runWrites (writerInit (List.replicate 10 0) 10 e_ply_storage_mode.ascii 1 2)
        [[1, 2, 3, 4], [5, 6, 7, 8]])).plySize = some 8 ∧
    (memClose (runWrites (writerInit (List.replicate 10 0) 10 e_ply_storage_mode.ascii 1 2)
        [[1, 2, 3, 4], [5, 6, 7, 8]])).buffer.take 8 = [1, 2, 3, 4, 5, 6, 7, 8] :=
  claim_C2_exact_write_then_close (List.replicate 10 0) 10 e_ply_storage_mode.ascii 1 2
    [[1, 2, 3, 4], [5, 6, 7, 8]] (by decide) (by decide)

/-- C3: for every sequence of writes whose total length exceeds
`bufferSize`, driving a freshly created writer handle through it marks the
handle failed, invokes the error callback exactly once with the `idata` and
`pdata` supplied at construction, and the failure is permanent: a further
write on the resulting handle changes nothing (no internal retries). -/
theorem claim_C3_overflow_exactly_one_error (buf : List Nat) (size : Nat)
    (mode : e_ply_storage_mode) (i : Int) (p : Nat) (ws : List (List Nat))
    (htot : size < (ws.map List.length).sum) :
    (runWrites (writerInit buf size mode i p) ws).failed = true ∧
    (runWrites (writerInit buf size mode i p) ws).errors =
      [⟨i, p, overflowMessage⟩] ∧
    (∀ d : List Nat,
       memWrite (runWrites (writerInit buf size mode i p) ws) d =
         runWrites (writerInit buf size mode i p) ws) := by
  have hflen : ws.flatten.length = (ws.map List.length).sum := List.length_flatten ws
  have hov := runWrites_overflow ws (writerInit buf size mode i p) rfl rfl
    (by show 0 ≤ size; omega)
    (by show size < 0 + ws.flatten.length; omega)
  refine ⟨hov.1, ?_, ?_⟩
  · have herr := hov.2.2.2.2.2.2.2
    simpa using herr
  · intro d
    exact memWrite_failed _ d hov.1

/-- Witness for C3 at a concrete handle: a single 3-byte write into a
size-2 buffer fails, logs exactly one report with the construction
context, and a subsequent write is a no-op. -/
theorem claim_C3_overflow_exactly_one_error_witness :
    (runWrites (writerInit [0, 0] 2 e_ply_storage_mode.ascii 5 9) [[1, 2, 3]]).failed = true ∧
    (runWrites (writerInit [0, 0] 2 e_ply_storage_mode.ascii 5 9) [[1, 2, 3]]).errors =
      [⟨5, 9, overflowMessage⟩] ∧
    memWrite (runWrites (writerInit [0, 0] 2 e_ply_storage_mode.ascii 5 9) [[1, 2, 3]]) [7] =
      runWrites (writerInit [0, 0] 2 e_ply_storage_mode.ascii 5 9) [[1, 2, 3]] := by
  have key := claim_C3_overflow_exactly_one_error [0, 0] 2 e_ply_storage_mode.ascii 5 9
    [[1, 2, 3]] (by decide)
  exact ⟨key.1, key.2.1, key.2.2 [7]⟩

/-- C4: `ply_open_from_memory` fails by returning a none (null) handle, and
it does so exactly when the buffer reference is null or internal handle
allocation fails; on every such failure the error callback is invoked with
a descriptive (non-empty) message together with the failure value. -/
theorem claim_C4_open_failure_iff (buffer : Option (List Nat)) (allocOk : Bool)
    (i : Int) (p : Nat) :
    ((ply_open_from_memory buffer allocOk i p).1 = none ↔
      buffer = none ∨ allocOk = false) ∧
    ((ply_open_from_memory buffer allocOk i p).1 = none →
      ∃ e ∈ (ply_open_from_memory buffer allocOk i p).2, e.message ≠ "") := by
  cases buffer with
  | none =>
    refine ⟨by simp [ply_open_from_memory], fun _ => ?_⟩
    exact ⟨⟨i, p, "unable to open from memory: buffer is null"⟩,
      List.mem_singleton.mpr rfl,
      by show ("unable to open from memory: buffer is null" : String) ≠ ""; decide⟩
  | some buf =>
    cases allocOk with
    | false =>
      refine ⟨by simp [ply_open_from_memory], fun _ => ?_⟩
      exact ⟨⟨i, p, "unable to allocate ply handle"⟩,
        List.mem_singleton.mpr rfl,
        by show ("unable to allocate ply handle" : String) ≠ ""; decide⟩
    | true =>
      refine ⟨by simp [ply_open_from_memory], fun hnone => ?_⟩
      exact absurd hnone (by simp [ply_open_from_memory])

/-- Witness for C4 at a concrete failing call: a null buffer yields a none
handle and a report with a non-empty message. -/
theorem claim_C4_open_failure_iff_witness :
    ((ply_open_from_memory none true 4 6).1 = none ↔
      (none : Option (List Nat)) = none ∨ true = false) ∧
    (∃ e ∈ (ply_open_from_memory none true 4 6).2, e.message ≠ "") :=
  ⟨(claim_C4_open_failure_iff none true 4 6).1,
   (claim_C4_open_failure_iff none true 4 6).2 rfl⟩

/-- C5: closing an open writer handle writes the final cursor value into
the output size slot exactly once; after a capacity-exceeded failure the
partial size produced before the failure is reported: with a 10-byte
buffer, writes of 6 then 6 bytes leave the slot at 6 after close, with the
error callback invoked once. -/
theorem claim_C5_close_reports_size :
    (∀ h : WriterHandle, h.closed = false →
       memClose h = { h with closed := true, plySize := some h.cursor }) ∧
    (memClose (runWrites (writerInit (List.replicate 10 0) 10 e_ply_storage_mode.ascii 7 3)
        [List.replicate 6 1, List.replicate 6 2])).plySize = some 6 ∧
    (memClose (runWrites (writerInit (List.replicate 10 0) 10 e_ply_storage_mode.ascii 7 3)
        [List.replicate 6 1, List.replicate 6 2])).errors.length = 1 := by
  refine ⟨memClose_open, by decide, by decide⟩

/-- Witness for C5 at a concrete open handle: closing publishes the cursor
into the size slot. -/
theorem claim_C5_close_reports_size_witness :
    memClose (writerInit [] 0 e_ply_storage_mode.ascii 0 0) =
      { writerInit [] 0 e_ply_storage_mode.ascii 0 0 with
          closed := true, plySize := some 0 } :=
  claim_C5_close_reports_size.1 (writerInit [] 0 e_ply_storage_mode.ascii 0 0) rfl

/-- C6: closing a writer handle that is already closed is idempotent: it
does not write the output size slot a second time and changes nothing. -/
theorem claim_C6_close_idempotent (h : WriterHandle) :
    memClose (memClose h) = memClose h := by
  by_cases hc : h.closed = true
  · rw [memClose_closed_id h hc, memClose_closed_id h hc]
  · have hc' : h.closed = false := by simpa using hc
    rw [memClose_open h hc']
    exact memClose_closed_id _ rfl

/-- C7: after every read or seek on a reader handle the cursor stays within
the document bounds, after every write on a writer handle the cursor stays
within the capacity bound, and a write that would exceed capacity is
rejected outright (buffer and cursor unchanged) rather than truncated or
allowed to overflow. -/
theorem claim_C7_cursor_invariant :
    (∀ (h : ReaderHandle) (op : ReaderOp), h.cursor ≤ h.length →
       (stepReader h op).1.cursor ≤ (stepReader h op).1.length) ∧
    (∀ (h : WriterHandle) (d : List Nat), h.cursor ≤ h.bufferSize →
       (memWrite h d).cursor ≤ (memWrite h d).bufferSize) ∧
    (∀ (h : WriterHandle) (d : List Nat),
       h.closed = false → h.failed = false → h.bufferSize < h.cursor + d.length →
       (memWrite h d).buffer = h.buffer ∧ (memWrite h d).cursor = h.cursor) := by
  refine ⟨stepReader_cursor_le, ?_, ?_⟩
  · intro h d hcur
    unfold memWrite
    split
    · exact hcur
    split
    · exact hcur
    split
    · exact hcur
    · rename_i hnov
      show h.cursor + d.length ≤ h.bufferSize
      omega
  · intro h d hc hf hov
    rw [memWrite_overflow h d hc hf hov]
    exact ⟨rfl, rfl⟩

/-- Witness for C7 at concrete handles: a read keeps the reader cursor in
bounds, a write keeps the writer cursor in bounds, and an oversized write
is rejected unchanged. -/
theorem claim_C7_cursor_invariant_witness :
    (stepReader (openReader [104, 105, 0] 1 2) (ReaderOp.read 9)).1.cursor ≤
      (stepReader (openReader [104, 105, 0] 1 2) (ReaderOp.read 9)).1.length ∧
    (memWrite (writerInit [0, 0] 2 e_ply_storage_mode.ascii 1 2) [5]).cursor ≤
      (memWrite (writerInit [0, 0] 2 e_ply_storage_mode.ascii 1 2) [5]).bufferSize ∧
    (memWrite (writerInit [0, 0] 2 e_ply_storage_mode.ascii 1 2) [5, 6, 7]).buffer =
        (writerInit [0, 0] 2 e_ply_storage_mode.ascii 1 2).buffer ∧
      (memWrite (writerInit [0, 0] 2 e_ply_storage_mode.ascii 1 2) [5, 6, 7]).cursor =
        (writerInit [0, 0] 2 e_ply_storage_mode.ascii 1 2).cursor :=
  ⟨claim_C7_cursor_invariant.1 (openReader [104, 105, 0] 1 2) (ReaderOp.read 9) (by decide),
   claim_C7_cursor_invariant.2.1 (writerInit [0, 0] 2 e_ply_storage_mode.ascii 1 2) [5]
     (by decide),
   claim_C7_cursor_invariant.2.2 (writerInit [0, 0] 2 e_ply_storage_mode.ascii 1 2)
     [5, 6, 7] rfl rfl (by decide)⟩

/-- C8: the `idata` and `pdata` values supplied at handle construction are
carried unchanged into every error report raised while driving that
handle, for the writer adapter (writes followed by close) and for the
reader adapter (reports raised by `ply_open_from_memory`). -/
theorem claim_C8_context_carried_unchanged :
    (∀ (buf : List Nat) (size : Nat) (mode : e_ply_storage_mode) (i : Int)
       (p : Nat) (ws : List (List Nat)),
       ∀ e ∈ (memClose (runWrites (writerInit buf size mode i p) ws)).errors,
         e.idata = i ∧ e.pdata = p) ∧
    (∀ (buffer : Option (List Nat)) (allocOk : Bool) (i : Int) (p : Nat),
       ∀ e ∈ (ply_open_from_memory buffer allocOk i p).2,
         e.idata = i ∧ e.pdata = p) := by
  constructor
  · intro buf size mode i p ws e he
    rw [memClose_errors] at he
    rcases runWrites_errors ws (writerInit buf size mode i p) e he with h1 | h2
    · exact absurd h1 (List.not_mem_nil e)
    · exact h2
  · intro buffer allocOk i p e he
    cases buffer with
    | none =>
      rcases List.mem_singleton.mp he with rfl
      exact ⟨rfl, rfl⟩
    | some buf =>
      cases allocOk with
      | false =>
        rcases List.mem_singleton.mp he with rfl
        exact ⟨rfl, rfl⟩
      | true => exact absurd he (List.not_mem_nil e)

/-- Witness for C8 at a concrete failing write: the report logged by an
overflowing writer carries the construction context values. -/
theorem claim_C8_context_carried_unchanged_witness :
    (ErrorReport.mk 7 3 overflowMessage).idata = 7 ∧
    (ErrorReport.mk 7 3 overflowMessage).pdata = 3 :=
  claim_C8_context_carried_unchanged.1 [] 0 e_ply_storage_mode.ascii 7 3 [[5]]
    ⟨7, 3, overflowMessage⟩ (by decide)

/-- C9: no sequence of operations performed through a reader handle ever
modifies the caller's buffer, and neither adapter deallocates or
reallocates the caller's buffer: the writer preserves the buffer's length
through every write sequence. -/
theorem claim_C9_buffer_never_freed :
    (∀ (h : ReaderHandle) (ops : List ReaderOp),
       (runReads h ops).1.buffer = h.buffer) ∧
    (∀ (h : WriterHandle) (ws : List (List Nat)),
       h.bufferSize ≤ h.buffer.length →
       (runWrites h ws).buffer.length = h.buffer.length) :=
  ⟨fun h ops => runReads_buffer ops h, fun h ws hwf => runWrites_length ws h hwf⟩

/-- Witness for C9 at concrete handles: a read leaves the reader buffer
intact and a write sequence preserves the writer buffer length. -/
theorem claim_C9_buffer_never_freed_witness :
    (runReads (openReader [104, 0] 1 2) [ReaderOp.read 1]).1.buffer =
      (openReader [104, 0] 1 2).buffer ∧
    (runWrites (writerInit [0] 1 e_ply_storage_mode.ascii 1 2) [[4]]).buffer.length =
      (writerInit [0] 1 e_ply_storage_mode.ascii 1 2).buffer.length :=
  ⟨claim_C9_buffer_never_freed.1 (openReader [104, 0] 1 2) [ReaderOp.read 1],
   claim_C9_buffer_never_freed.2 (writerInit [0] 1 e_ply_storage_mode.ascii 1 2) [[4]]
     (by decide)⟩

/-- C10: `ply_open_from_memory` receives only the buffer with no length
parameter (src/rplymemory.h:29), so the in-memory document is delimited by
its first NUL byte: the opened handle's document length stops at the first
NUL, and the bytes after that NUL are never visible through the handle —
any operation sequence delivers identical bytes whatever follows the
NUL. -/
theorem claim_C10_nul_delimited (a b b' : List Nat) (i : Int) (p : Nat)
    (ops : List ReaderOp) (ha : (0 : Nat) ∉ a) :
    (openReader (a ++ 0 :: b) i p).length = a.length ∧
    (runReads (openReader (a ++ 0 :: b) i p) ops).2 =
      (runReads (openReader (a ++ 0 :: b') i p) ops).2 := by
  have h1 : strlenFn (a ++ 0 :: b) = a.length := strlenFn_append_nul a b ha
  have h2 : strlenFn (a ++ 0 :: b') = a.length := strlenFn_append_nul a b' ha
  refine ⟨h1, ?_⟩
  have hdoc : (a ++ 0 :: b).take (strlenFn (a ++ 0 :: b)) =
      (a ++ 0 :: b').take (strlenFn (a ++ 0 :: b')) := by
    rw [h1, h2, List.take_left, List.take_left]
  exact (runReads_congr ops (openReader (a ++ 0 :: b) i p) (openReader (a ++ 0 :: b') i p)
    rfl (by show strlenFn (a ++ 0 :: b) = strlenFn (a ++ 0 :: b'); rw [h1, h2]) hdoc).1

/-- Witness for C10 at a concrete buffer: a two-byte document followed by a
NUL and differing trailing bytes opens with length 2 and delivers the same
bytes. -/
theorem claim_C10_nul_delimited_witness :
    (openReader ([112, 108] ++ 0 :: [9]) 1 2).length = 2 ∧
    (runReads (openReader ([112, 108] ++ 0 :: [9]) 1 2) [ReaderOp.read 5]).2 =
      (runReads (openReader ([112, 108] ++ 0 :: [42]) 1 2) [ReaderOp.read 5]).2 :=
  claim_C10_nul_delimited [112, 108] [9] [42] 1 2 [ReaderOp.read 5] (by decide)

end RPlyMemory
